import Mathlib

/-!
Verification of the Railbird camera-rail system.

The development shallowly embeds `src/systems/camera-rail.ts` (the rail
store: control-point CRUD, `getPose` interpolation, serialization) and the
pointer-interaction logic of the editor view (`handlePointerDown`,
`handlePointerMove`, `handlePointerUp`, and the delete command).

Modelling conventions:
- JavaScript numbers are idealized as real numbers (`ℝ`).
- The mutable `controlPoints` array is a `List ControlPoint`; each mutating
  operation becomes a function from the old list to the new list.
- THREE.js vector/quaternion operations used by the code
  (`lerpVectors`, `slerpQuaternions`, `setFromAxisAngle`, `multiply`,
  `normalize`) are embedded from their THREE.js sources.
- The camera / raycaster is an external collaborator: ray-cast results
  (plane intersections and mesh hits) arrive as inputs of each pointer
  event, mirroring the values `getIntersectionPoint` / `getHitPointMesh`
  would produce from the scene.
-/

namespace Railbird

noncomputable section

/-! ### Geometry data types -/

/-- Embedding of `THREE.Vector3` as a plain coordinate triple. -/
structure Vec3 where
  x : ℝ
  y : ℝ
  z : ℝ

/-- Embedding of `THREE.Quaternion` as a plain component quadruple. -/
structure Quat where
  x : ℝ
  y : ℝ
  z : ℝ
  w : ℝ

/-- Result of `new THREE.Quaternion()`: the identity rotation (0,0,0,1). -/
def identityQuat : Quat := ⟨0, 0, 0, 1⟩

/-- Negation of every quaternion component (the other representative of the
same rotation under the double cover). -/
def quatNeg (q : Quat) : Quat := ⟨-q.x, -q.y, -q.z, -q.w⟩

/-- Equality of quaternions up to sign, i.e. up to the double cover of the
rotation group. -/
def quatSignEq (a b : Quat) : Prop := a = b ∨ a = quatNeg b

/-! ### Rail store data model (`camera-rail.ts`) -/

/-- Embedding of the `ControlPoint` interface. -/
structure ControlPoint where
  id : String
  position : Vec3
  quaternion : Quat

/-- Embedding of the `ControlPointData` interface (the plain-data serialized
mirror of `ControlPoint`). -/
structure ControlPointData where
  id : String
  position : Vec3
  quaternion : Quat

/-- Embedding of the `CameraPose` interface. -/
structure CameraPose where
  position : Vec3
  quaternion : Quat

/-- Placeholder used to totalize JavaScript array indexing; every indexing
site is proved in range, so the placeholder is never produced. -/
def defaultPoint : ControlPoint := ⟨"", ⟨0, 0, 0⟩, identityQuat⟩

/-- Embedding of `generatePointId`: builds `cp_${Date.now()}_${pointCounter++}`
from the current time and counter value. -/
def generatePointId (now counter : ℕ) : String :=
  "cp_" ++ toString now ++ "_" ++ toString counter

/-- Embedding of `addPoint`: appends a fresh point (cloned position, given or
identity orientation) and returns the new list, the created point, and the
incremented id counter. -/
def addPoint (controlPoints : List ControlPoint) (now counter : ℕ)
    (position : Vec3) (quaternion : Option Quat) :
    List ControlPoint × ControlPoint × ℕ :=
  let point : ControlPoint :=
    { id := generatePointId now counter
      position := position
      quaternion := quaternion.getD identityQuat }
  (controlPoints ++ [point], point, counter + 1)

/-- Embedding of `removePoint`: `findIndex` on the id, then `splice(index, 1)`;
when the id is absent (`findIndex` returns −1) the list is unchanged. -/
def removePoint (controlPoints : List ControlPoint) (id : String) :
    List ControlPoint :=
  match controlPoints.findIdx? (fun p => p.id == id) with
  | some index => controlPoints.eraseIdx index
  | none => controlPoints

/-- Embedding of `updatePoint`: `find` locates the first point with the given
id and mutates in place exactly the fields that were passed; an absent id
leaves the array untouched. -/
def updatePoint (controlPoints : List ControlPoint) (id : String)
    (position : Option Vec3) (quaternion : Option Quat) : List ControlPoint :=
  match controlPoints with
  | [] => []
  | p :: rest =>
    if p.id == id then
      { p with
        position := position.getD p.position
        quaternion := quaternion.getD p.quaternion } :: rest
    else
      p :: updatePoint rest id position quaternion

/-- Embedding of `getPoint`: `find` on the id. -/
def getPoint (controlPoints : List ControlPoint) (id : String) :
    Option ControlPoint :=
  controlPoints.find? (fun p => p.id == id)

/-- Embedding of `reorderPoint`: `findIndex`, `splice` the point out, clamp the
requested index with `Math.max(0, Math.min(newIndex, length))` against the
length of the shortened array, and `splice` the point back in. -/
def reorderPoint (controlPoints : List ControlPoint) (id : String)
    (newIndex : ℤ) : List ControlPoint :=
  match controlPoints.findIdx? (fun p => p.id == id) with
  | none => controlPoints
  | some currentIndex =>
    let point := controlPoints.getD currentIndex defaultPoint
    let rest := controlPoints.eraseIdx currentIndex
    let clampedIndex : ℤ := max 0 (min newIndex (rest.length : ℤ))
    rest.insertIdx clampedIndex.toNat point

/-- Embedding of `toJSON`: maps each point to a plain-data record, copying the
position and quaternion component by component. -/
def toJSON (controlPoints : List ControlPoint) : List ControlPointData :=
  controlPoints.map fun p =>
    { id := p.id
      position := { x := p.position.x, y := p.position.y, z := p.position.z }
      quaternion :=
        { x := p.quaternion.x, y := p.quaternion.y, z := p.quaternion.z
          w := p.quaternion.w } }

/-- Embedding of `fromJSON`: truncates the existing array
(`controlPoints.length = 0`) and pushes one freshly constructed point per
input record, in input order, with no validation. The old list is an argument
only to reflect that it is discarded wholesale. -/
def fromJSON (oldPoints : List ControlPoint) (data : List ControlPointData) :
    List ControlPoint :=
  data.map fun d =>
    { id := d.id
      position := { x := d.position.x, y := d.position.y, z := d.position.z }
      quaternion :=
        { x := d.quaternion.x, y := d.quaternion.y, z := d.quaternion.z
          w := d.quaternion.w } }

/-- Embedding of `dispose`: clears the sequence. -/
def dispose (controlPoints : List ControlPoint) : List ControlPoint :=
  []

/-! ### THREE.js geometry operations used by the rail store and editor -/

/-- Embedding of `THREE.Vector3.lerpVectors(v1, v2, alpha)`:
componentwise `v1 + (v2 - v1) * alpha`. -/
def lerpVectors (v1 v2 : Vec3) (alpha : ℝ) : Vec3 :=
  ⟨v1.x + (v2.x - v1.x) * alpha,
   v1.y + (v2.y - v1.y) * alpha,
   v1.z + (v2.z - v1.z) * alpha⟩

/-- Embedding of `THREE.Quaternion.multiplyQuaternions(a, b)` (Hamilton
product, as written in THREE.js). -/
def quatMul (a b : Quat) : Quat :=
  ⟨a.x * b.w + a.w * b.x + a.y * b.z - a.z * b.y,
   a.y * b.w + a.w * b.y + a.z * b.x - a.x * b.z,
   a.z * b.w + a.w * b.z + a.x * b.y - a.y * b.x,
   a.w * b.w - a.x * b.x - a.y * b.y - a.z * b.z⟩

/-- Embedding of `THREE.Quaternion.setFromAxisAngle(axis, angle)` (axis
assumed normalized): components `axis * sin(angle/2)` and `cos(angle/2)`. -/
def setFromAxisAngle (axis : Vec3) (angle : ℝ) : Quat :=
  let halfAngle := angle / 2
  let s := Real.sin halfAngle
  ⟨axis.x * s, axis.y * s, axis.z * s, Real.cos halfAngle⟩

/-- Embedding of `THREE.Quaternion.normalize()`: divide by the Euclidean
length, or fall back to the identity quaternion when the length is zero. -/
def normalizeQuat (q : Quat) : Quat :=
  let l := Real.sqrt (q.x * q.x + q.y * q.y + q.z * q.z + q.w * q.w)
  if l = 0 then ⟨0, 0, 0, 1⟩
  else ⟨q.x * (1 / l), q.y * (1 / l), q.z * (1 / l), q.w * (1 / l)⟩

/-- Embedding of JavaScript `Math.atan2(y, x)` on the reals. -/
def atan2 (y x : ℝ) : ℝ :=
  if 0 < x then Real.arctan (y / x)
  else if x < 0 then
    if 0 ≤ y then Real.arctan (y / x) + Real.pi
    else Real.arctan (y / x) - Real.pi
  else if 0 < y then Real.pi / 2
  else if y < 0 then -(Real.pi / 2)
  else 0

/-- Idealization of `Number.EPSILON` (2⁻⁵²). -/
def jsEpsilon : ℝ := 2 ^ (-52 : ℤ)

/-- Embedding of `THREE.Quaternion.slerpQuaternions(qa, qb, t)`, i.e.
`copy(qa).slerp(qb, t)`: shortest-path spherical linear interpolation with
THREE.js's early-outs at `t = 0`, `t = 1`, aligned inputs, and nearly aligned
inputs (normalized linear interpolation). -/
def slerpQuaternions (qa qb : Quat) (t : ℝ) : Quat :=
  if t = 0 then qa
  else if t = 1 then qb
  else
    let cosHalfTheta0 := qa.w * qb.w + qa.x * qb.x + qa.y * qb.y + qa.z * qb.z
    let target := if cosHalfTheta0 < 0 then quatNeg qb else qb
    let cosHalfTheta := if cosHalfTheta0 < 0 then -cosHalfTheta0 else cosHalfTheta0
    if 1 ≤ cosHalfTheta then qa
    else
      let sqrSinHalfTheta := 1 - cosHalfTheta * cosHalfTheta
      if sqrSinHalfTheta ≤ jsEpsilon then
        let s := 1 - t
        normalizeQuat
          ⟨s * qa.x + t * target.x, s * qa.y + t * target.y,
           s * qa.z + t * target.z, s * qa.w + t * target.w⟩
      else
        let sinHalfTheta := Real.sqrt sqrSinHalfTheta
        let halfTheta := atan2 sinHalfTheta cosHalfTheta
        let ratioA := Real.sin ((1 - t) * halfTheta) / sinHalfTheta
        let ratioB := Real.sin (t * halfTheta) / sinHalfTheta
        ⟨qa.x * ratioA + target.x * ratioB, qa.y * ratioA + target.y * ratioB,
         qa.z * ratioA + target.z * ratioB, qa.w * ratioA + target.w * ratioB⟩

/-- Embedding of `getPose(t)`: empty-marker on an empty rail, the single
point's pose verbatim on a one-point rail, and otherwise the clamped,
segment-indexed linear/slerp interpolation of the two segment endpoints. -/
def getPose (controlPoints : List ControlPoint) (t : ℝ) : Option CameraPose :=
  if controlPoints.length = 0 then none
  else if controlPoints.length = 1 then
    some ⟨(controlPoints.getD 0 defaultPoint).position,
          (controlPoints.getD 0 defaultPoint).quaternion⟩
  else
    let clampedT := max 0 (min 1 t)
    let totalSegments : ℕ := controlPoints.length - 1
    let segmentT : ℝ := clampedT * (totalSegments : ℝ)
    let segmentIndex : ℤ := min ⌊segmentT⌋ ((totalSegments : ℤ) - 1)
    let localT : ℝ := segmentT - (segmentIndex : ℝ)
    let p0 := controlPoints.getD segmentIndex.toNat defaultPoint
    let p1 := controlPoints.getD (segmentIndex.toNat + 1) defaultPoint
    some ⟨lerpVectors p0.position p1.position localT,
          slerpQuaternions p0.quaternion p1.quaternion localT⟩

/-! ### Editor pointer-interaction state machine (`EditorView`)

The editor keeps its interaction state in React refs and props:
the rail store, the editor mode, the selected point id, two drag flags,
the `OrbitControls.enabled` flag of the viewport, and the last sampled
pointer position. Ray casting runs against the live scene, so each
pointer event carries the values the code would obtain from
`getIntersectionPoint` (drag-plane intersection, `none` when the ray misses
the plane) and `getHitPointMesh` (the hit point id plus whether the cone
sub-target was hit). The drag plane itself only feeds those externally
computed intersections, so it carries no further model state. -/

/-- Embedding of `EditorMode` from `RailEditor.tsx`. -/
inductive EditorMode
  | select
  | create
deriving DecidableEq

/-- Embedding of `THREE.Vector2` (normalized device coordinates). -/
structure Vec2 where
  x : ℝ
  y : ℝ

/-- Embedding of `HitResult` from `EditorView`: which point mesh was hit and
whether the hit sub-object was the cone (direction indicator). -/
structure HitResult where
  pointId : String
  hitCone : Bool

/-- Interaction state of the editor view. -/
structure EditorState where
  rail : List ControlPoint
  counter : ℕ
  mode : EditorMode
  selectedPointId : Option String
  isDraggingPosition : Bool
  isDraggingRotation : Bool
  controlsEnabled : Bool
  lastMouse : Vec2

/-- Embedding of `handlePointerDown`: primary button only; record the pointer
sample; in create mode add a point at the drag-plane intersection (if any)
with the camera orientation and switch back to select mode; in select mode
either start a position/rotation drag on the hit point (disabling free-look)
or clear the selection. -/
def handlePointerDown (s : EditorState) (button : ℕ) (mouse : Vec2)
    (hit : Option HitResult) (intersection : Option Vec3)
    (cameraQuaternion : Quat) (now : ℕ) : EditorState :=
  if button ≠ 0 then s
  else
    let s1 := { s with lastMouse := mouse }
    match s1.mode with
    | .create =>
      match intersection with
      | some point =>
        let result := addPoint s1.rail now s1.counter point (some cameraQuaternion)
        { s1 with rail := result.1, counter := result.2.2, mode := .select }
      | none => s1
    | .select =>
      match hit with
      | some hitResult =>
        let s2 := { s1 with selectedPointId := some hitResult.pointId }
        if hitResult.hitCone then
          { s2 with isDraggingRotation := true, controlsEnabled := false }
        else
          { s2 with isDraggingPosition := true, controlsEnabled := false }
      | none => { s1 with selectedPointId := none }

/-- Embedding of `handlePointerMove`: only acts in select mode with a
selection; a position drag moves the selected point to the drag-plane
intersection; a rotation drag converts the pointer delta to yaw and pitch
quaternions with sensitivity 2 and stores `yaw * current * pitch`. -/
def handlePointerMove (s : EditorState) (mouse : Vec2)
    (intersection : Option Vec3) : EditorState :=
  match s.selectedPointId with
  | none => s
  | some selectedId =>
    if s.mode ≠ EditorMode.select then s
    else if s.isDraggingPosition then
      match intersection with
      | some point =>
        { s with rail := updatePoint s.rail selectedId (some point) none }
      | none => s
    else if s.isDraggingRotation then
      let deltaX := mouse.x - s.lastMouse.x
      let deltaY := mouse.y - s.lastMouse.y
      let s1 := { s with lastMouse := mouse }
      match getPoint s1.rail selectedId with
      | none => s1
      | some controlPoint =>
        let sensitivity : ℝ := 2
        let yawDelta := deltaX * sensitivity
        let pitchDelta := deltaY * sensitivity
        let yawQuat := setFromAxisAngle ⟨0, 1, 0⟩ yawDelta
        let pitchQuat := setFromAxisAngle ⟨1, 0, 0⟩ pitchDelta
        let newQuat := quatMul (quatMul yawQuat controlPoint.quaternion) pitchQuat
        { s1 with rail := updatePoint s1.rail selectedId none (some newQuat) }
    else s

/-- Embedding of `handlePointerUp` (also registered for `pointerleave`): if
either drag flag is set, clear both and re-enable the free-look controls. -/
def handlePointerUp (s : EditorState) : EditorState :=
  if s.isDraggingPosition || s.isDraggingRotation then
    { s with
      isDraggingPosition := false
      isDraggingRotation := false
      controlsEnabled := true }
  else s

/-- Embedding of the `__deleteControlPoint` command exposed to the list
panel: remove the point from the rail and clear the selection if the deleted
point was selected. -/
def deleteControlPoint (s : EditorState) (id : String) : EditorState :=
  let s1 := { s with rail := removePoint s.rail id }
  if s1.selectedPointId = some id then { s1 with selectedPointId := none }
  else s1

/-- Pointer-event stream consumed by the interaction machine; ray-cast
results are part of the event, as produced by the scene. -/
inductive Event
  | pointerDown (button : ℕ) (mouse : Vec2) (hit : Option HitResult)
      (intersection : Option Vec3) (cameraQuaternion : Quat) (now : ℕ)
  | pointerMove (mouse : Vec2) (intersection : Option Vec3)
  | pointerUp
  | pointerLeave
  | deletePoint (id : String)

/-- One step of the interaction machine: dispatch an event to its handler. -/
def step (s : EditorState) : Event → EditorState
  | .pointerDown button mouse hit intersection cameraQuaternion now =>
    handlePointerDown s button mouse hit intersection cameraQuaternion now
  | .pointerMove mouse intersection => handlePointerMove s mouse intersection
  | .pointerUp => handlePointerUp s
  | .pointerLeave => handlePointerUp s
  | .deletePoint id => deleteControlPoint s id

/-! ### Concrete rails used to instantiate the theorems -/

/-- Control point "a" at (1,2,3), identity orientation. -/
def cpA : ControlPoint := ⟨"a", ⟨1, 2, 3⟩, identityQuat⟩

/-- Control point "b" at (4,5,6), identity orientation. -/
def cpB : ControlPoint := ⟨"b", ⟨4, 5, 6⟩, identityQuat⟩

/-- Control point "c" at (7,8,9), identity orientation. -/
def cpC : ControlPoint := ⟨"c", ⟨7, 8, 9⟩, identityQuat⟩

/-- A three-point rail with ids a, b, c. -/
def railABC : List ControlPoint := [cpA, cpB, cpC]

/-- Serialized data with a duplicated id. -/
def duplicateData : List ControlPointData :=
  [⟨"a", ⟨0, 0, 0⟩, identityQuat⟩, ⟨"a", ⟨1, 0, 0⟩, identityQuat⟩]

/-- The two-point rail of the C1/C2 scenarios: identity orientations at
(0,0,0) and (10,0,0). -/
def railTwo : List ControlPoint :=
  [⟨"p0", ⟨0, 0, 0⟩, identityQuat⟩, ⟨"p1", ⟨10, 0, 0⟩, identityQuat⟩]

/-- The three evenly spaced points of the C2 scenario. -/
def railThree : List ControlPoint :=
  [⟨"q0", ⟨0, 0, 0⟩, identityQuat⟩, ⟨"q1", ⟨1, 0, 0⟩, identityQuat⟩,
   ⟨"q2", ⟨2, 0, 0⟩, identityQuat⟩]

/-! ### Spec-side quantities of the interpolation description -/

/-- Number of segments `S = count − 1`, as the spec words it. -/
def specSegments (count : ℕ) : ℕ := count - 1

/-- Progress scaled to segment space, `u = clamp(t) · S`. -/
def specU (count : ℕ) (t : ℝ) : ℝ :=
  max 0 (min 1 t) * (specSegments count : ℝ)

/-- Segment index `min(⌊u⌋, S − 1)`. -/
def specSegmentIndex (count : ℕ) (t : ℝ) : ℤ :=
  min ⌊specU count t⌋ ((specSegments count : ℤ) - 1)

/-- Local parameter `local = u − segment`. -/
def specLocalT (count : ℕ) (t : ℝ) : ℝ :=
  specU count t - (specSegmentIndex count t : ℝ)

/-- Quaternion conjugate (inverse of a unit quaternion). -/
def quatConj (q : Quat) : Quat := ⟨-q.x, -q.y, -q.z, q.w⟩

/-- Action of a unit quaternion on a vector: conjugation `q · (v, 0) · q*`.
For a unit `q` this is the rotation `q` represents, so `rotateVec q ⟨1,0,0⟩`
is the point's local right axis expressed in world space. -/
def rotateVec (q : Quat) (v : Vec3) : Vec3 :=
  let r := quatMul (quatMul q ⟨v.x, v.y, v.z, 0⟩) (quatConj q)
  ⟨r.x, r.y, r.z⟩

/-- Unit-norm predicate on quaternions. -/
def unitQuat (q : Quat) : Prop :=
  q.x ^ 2 + q.y ^ 2 + q.z ^ 2 + q.w ^ 2 = 1

/-! ### Concrete editor states and events -/

/-- Editor state used to exercise the mid-drag deletion scenario: a position
drag is active on the selected id "z", which is not on the rail. -/
def midDragState : EditorState :=
  { rail := railABC
    counter := 3
    mode := EditorMode.select
    selectedPointId := some "z"
    isDraggingPosition := true
    isDraggingRotation := false
    controlsEnabled := false
    lastMouse := ⟨0, 0⟩ }

/-- Editor state with an active rotation drag on point "b". -/
def rotDragState : EditorState :=
  { rail := railABC
    counter := 3
    mode := EditorMode.select
    selectedPointId := some "b"
    isDraggingPosition := false
    isDraggingRotation := true
    controlsEnabled := false
    lastMouse := ⟨0, 0⟩ }

/-- Editor state with an active position drag on point "b". -/
def posDragState : EditorState :=
  { rotDragState with isDraggingPosition := true, isDraggingRotation := false }

/-- An idle select-mode editor state over the three-point rail. -/
def idleState : EditorState :=
  { rail := railABC
    counter := 3
    mode := EditorMode.select
    selectedPointId := none
    isDraggingPosition := false
    isDraggingRotation := false
    controlsEnabled := true
    lastMouse := ⟨0, 0⟩ }

/-- Primary-button pointer-down hitting the sphere (body) of point "a". -/
def downOnSphere : Event :=
  .pointerDown 0 ⟨0, 0⟩ (some ⟨"a", false⟩) none identityQuat 0

/-- Primary-button pointer-down hitting the cone (direction indicator) of
point "a". -/
def downOnCone : Event :=
  .pointerDown 0 ⟨0, 0⟩ (some ⟨"a", true⟩) none identityQuat 0

/-- A drag gesture is active. -/
def Dragging (s : EditorState) : Prop :=
  s.isDraggingPosition = true ∨ s.isDraggingRotation = true

/-- At most one of the two drag states is active. -/
def DragExclusive (s : EditorState) : Prop :=
  ¬(s.isDraggingPosition = true ∧ s.isDraggingRotation = true)

/-! ### Helper lemmas about the store operations -/

theorem findIdx?_eq_none_of_absent {controlPoints : List ControlPoint}
    {id : String} (h : ∀ p ∈ controlPoints, p.id ≠ id) :
    controlPoints.findIdx? (fun p => p.id == id) = none := by
  rw [List.findIdx?_eq_none_iff]
  intro x hx
  simpa using h x hx

theorem updatePoint_absent {controlPoints : List ControlPoint} {id : String}
    (h : ∀ p ∈ controlPoints, p.id ≠ id) (position : Option Vec3)
    (quaternion : Option Quat) :
    updatePoint controlPoints id position quaternion = controlPoints := by
  induction controlPoints with
  | nil => rfl
  | cons p rest ih =>
    have hp : (p.id == id) = false := by
      simpa using h p (List.mem_cons_self p rest)
    simp only [updatePoint, hp, Bool.false_eq_true, if_false]
    rw [ih fun q hq => h q (List.mem_cons_of_mem p hq)]

theorem removePoint_absent {controlPoints : List ControlPoint} {id : String}
    (h : ∀ p ∈ controlPoints, p.id ≠ id) :
    removePoint controlPoints id = controlPoints := by
  unfold removePoint
  rw [findIdx?_eq_none_of_absent h]

theorem getPoint_absent {controlPoints : List ControlPoint} {id : String}
    (h : ∀ p ∈ controlPoints, p.id ≠ id) :
    getPoint controlPoints id = none := by
  unfold getPoint
  rw [List.find?_eq_none]
  intro x hx
  simpa using h x hx

theorem reorderPoint_absent {controlPoints : List ControlPoint} {id : String}
    (h : ∀ p ∈ controlPoints, p.id ≠ id) (newIndex : ℤ) :
    reorderPoint controlPoints id newIndex = controlPoints := by
  unfold reorderPoint
  rw [findIdx?_eq_none_of_absent h]

/-- Relation between `findIndex` and `find`: either both miss, or `findIndex`
returns the position of the element `find` returns. -/
theorem findIdx?_getPoint_rel (controlPoints : List ControlPoint) (id : String) :
    (controlPoints.findIdx? (fun p => p.id == id) = none ∧
      getPoint controlPoints id = none) ∨
    (∃ i, controlPoints.findIdx? (fun p => p.id == id) = some i ∧
      getPoint controlPoints id = some (controlPoints.getD i defaultPoint)) := by
  induction controlPoints with
  | nil => exact Or.inl ⟨rfl, rfl⟩
  | cons p rest ih =>
    by_cases hp : (p.id == id) = true
    · refine Or.inr ⟨0, ?_, ?_⟩
      · simp [List.findIdx?_cons, hp]
      · simp [getPoint, List.find?_cons, hp, List.getD]
    · rcases ih with ⟨hfi, hfp⟩ | ⟨i, hfi, hfp⟩
      · refine Or.inl ⟨?_, ?_⟩
        · simp [List.findIdx?_cons, hp, List.findIdx?_succ, hfi]
        · simpa [getPoint, List.find?_cons, hp] using hfp
      · refine Or.inr ⟨i + 1, ?_, ?_⟩
        · simp [List.findIdx?_cons, hp, List.findIdx?_succ, hfi]
        · simpa [getPoint, List.find?_cons, hp, List.getD] using hfp

theorem handlePointerMove_rail_absent (s : EditorState) (mouse : Vec2)
    (intersection : Option Vec3) (id : String)
    (hsel : s.selectedPointId = some id) (h : ∀ p ∈ s.rail, p.id ≠ id) :
    (handlePointerMove s mouse intersection).rail = s.rail := by
  unfold handlePointerMove
  rw [hsel]
  by_cases hmode : s.mode ≠ EditorMode.select
  · simp [hmode]
  · simp only [hmode, if_false]
    by_cases hpos : s.isDraggingPosition
    · cases intersection with
      | none => simp [hpos]
      | some point => simp [hpos, updatePoint_absent h]
    · by_cases hrot : s.isDraggingRotation
      · simp [hpos, hrot, getPoint_absent h]
      · simp [hpos, hrot]

theorem handlePointerUp_clears (s : EditorState) :
    (handlePointerUp s).isDraggingPosition = false ∧
    (handlePointerUp s).isDraggingRotation = false ∧
    (s.isDraggingPosition = true ∨ s.isDraggingRotation = true →
      (handlePointerUp s).controlsEnabled = true) := by
  by_cases hpos : s.isDraggingPosition = true
  · simp [handlePointerUp, hpos]
  · by_cases hrot : s.isDraggingRotation = true
    · simp [handlePointerUp, hrot]
    · rw [Bool.not_eq_true] at hpos hrot
      simp [handlePointerUp, hpos, hrot]

/-! ### Claim theorems: serialization -/

/-- C4: for every rail, `fromJSON` applied to the output of `toJSON`
reproduces the rail: the same ids in the same order, with positions and
orientations equal (exactly, in the real-number idealization, hence within
any floating-point tolerance). -/
theorem fromJSON_toJSON_roundtrip (oldPoints controlPoints : List ControlPoint) :
    fromJSON oldPoints (toJSON controlPoints) = controlPoints := by
  induction controlPoints with
  | nil => rfl
  | cons p rest ih =>
    obtain ⟨pid, ⟨px, py, pz⟩, ⟨qx, qy, qz, qw⟩⟩ := p
    simpa [toJSON, fromJSON] using ih

/-- C10: `fromJSON` replaces the sequence with points carrying exactly the
input ids, positions and orientations in input order, with no validation;
in particular a duplicated id survives deserialization, so the store's
id-uniqueness invariant is not enforced. -/
theorem fromJSON_no_validation :
    (∀ (oldPoints : List ControlPoint) (data : List ControlPointData),
      (fromJSON oldPoints data).map ControlPoint.id =
        data.map ControlPointData.id ∧
      (fromJSON oldPoints data).map ControlPoint.position =
        data.map ControlPointData.position ∧
      (fromJSON oldPoints data).map ControlPoint.quaternion =
        data.map ControlPointData.quaternion) ∧
    ((fromJSON [] duplicateData).map ControlPoint.id).count "a" = 2 := by
  constructor
  · intro oldPoints data
    refine ⟨?_, ?_, ?_⟩ <;>
      simp [fromJSON, List.map_map, Function.comp]
  · simp [fromJSON, duplicateData, List.count_cons]

/-! ### Claim theorems: absent-id handling and reordering -/

/-- C6: every point-lookup operation called with an id not present in the
rail is a silent no-op or empty result leaving the stored sequence
unchanged; a pointer-move during a drag whose selected point is absent
leaves the rail unchanged; and pointer-up always clears both drag states and
re-enables free-look control whenever a drag was active, independently of
the rail's contents. -/
theorem absent_id_operations_are_noops :
    (∀ (controlPoints : List ControlPoint) (id : String),
      (∀ p ∈ controlPoints, p.id ≠ id) →
      (∀ position quaternion,
        updatePoint controlPoints id position quaternion = controlPoints) ∧
      removePoint controlPoints id = controlPoints ∧
      getPoint controlPoints id = none ∧
      (∀ newIndex, reorderPoint controlPoints id newIndex = controlPoints)) ∧
    (∀ (s : EditorState) (mouse : Vec2) (intersection : Option Vec3)
      (id : String), s.selectedPointId = some id →
      (∀ p ∈ s.rail, p.id ≠ id) →
      (handlePointerMove s mouse intersection).rail = s.rail) ∧
    (∀ s : EditorState,
      (handlePointerUp s).isDraggingPosition = false ∧
      (handlePointerUp s).isDraggingRotation = false ∧
      (s.isDraggingPosition = true ∨ s.isDraggingRotation = true →
        (handlePointerUp s).controlsEnabled = true)) := by
  refine ⟨fun controlPoints id h => ?_, handlePointerMove_rail_absent,
    handlePointerUp_clears⟩
  exact ⟨fun position quaternion => updatePoint_absent h position quaternion,
    removePoint_absent h, getPoint_absent h,
    fun newIndex => reorderPoint_absent h newIndex⟩

theorem absent_id_operations_are_noops_witness :
    updatePoint railABC "z" (some ⟨0, 0, 0⟩) none = railABC ∧
    removePoint railABC "z" = railABC ∧
    getPoint railABC "z" = none ∧
    reorderPoint railABC "z" 5 = railABC ∧
    (handlePointerMove midDragState ⟨1, 1⟩ (some ⟨0, 0, 0⟩)).rail =
      midDragState.rail ∧
    (handlePointerUp midDragState).isDraggingPosition = false ∧
    (handlePointerUp midDragState).isDraggingRotation = false ∧
    (handlePointerUp midDragState).controlsEnabled = true := by
  have habs : ∀ p ∈ railABC, p.id ≠ "z" := by
    intro p hp
    simp only [railABC, cpA, cpB, cpC, List.mem_cons, List.not_mem_nil,
      or_false] at hp
    rcases hp with rfl | rfl | rfl <;> decide
  have h1 := (absent_id_operations_are_noops.1 railABC "z" habs)
  have h2 := absent_id_operations_are_noops.2.1 midDragState ⟨1, 1⟩
    (some ⟨0, 0, 0⟩) "z" rfl habs
  have h3 := absent_id_operations_are_noops.2.2 midDragState
  exact ⟨h1.1 (some ⟨0, 0, 0⟩) none, h1.2.1, h1.2.2.1, h1.2.2.2 5, h2,
    h3.1, h3.2.1, h3.2.2 (Or.inl rfl)⟩

/-- C5: `reorderPoint` on a present id removes the point and re-inserts it
at the requested index clamped to `[0, length]`, and is a no-op on an absent
id; reordering the first point of the three-point rail to index 1000 places
it last. -/
theorem reorderPoint_clamps :
    (∀ (controlPoints : List ControlPoint) (id : String) (newIndex : ℤ)
      (point : ControlPoint), getPoint controlPoints id = some point →
      reorderPoint controlPoints id newIndex =
        (removePoint controlPoints id).insertIdx
          (max 0 (min newIndex ((removePoint controlPoints id).length : ℤ))).toNat
          point) ∧
    (∀ (controlPoints : List ControlPoint) (id : String) (newIndex : ℤ),
      getPoint controlPoints id = none →
      reorderPoint controlPoints id newIndex = controlPoints) ∧
    (reorderPoint railABC "a" 1000).map ControlPoint.id = ["b", "c", "a"] := by
  refine ⟨?_, ?_, ?_⟩
  · intro controlPoints id newIndex point hfound
    rcases findIdx?_getPoint_rel controlPoints id with ⟨hfi, hfp⟩ | ⟨i, hfi, hfp⟩
    · rw [hfound] at hfp
      exact absurd hfp (by simp)
    · rw [hfound] at hfp
      obtain rfl : controlPoints.getD i defaultPoint = point :=
        Option.some.injEq .. ▸ hfp.symm ▸ rfl
      unfold reorderPoint removePoint
      rw [hfi]
  · intro controlPoints id newIndex hnone
    rcases findIdx?_getPoint_rel controlPoints id with ⟨hfi, _⟩ | ⟨i, hfi, hfp⟩
    · unfold reorderPoint
      rw [hfi]
    · rw [hnone] at hfp
      exact absurd hfp (by simp)
  · rfl

theorem reorderPoint_clamps_witness :
    getPoint railABC "a" = some cpA ∧
    reorderPoint railABC "a" 1000 =
      (removePoint railABC "a").insertIdx
        (max 0 (min 1000 ((removePoint railABC "a").length : ℤ))).toNat cpA :=
  ⟨rfl, reorderPoint_clamps.1 railABC "a" 1000 cpA rfl⟩

/-! ### Claim theorems: getPose interpolation -/

theorem lerpVectors_zero (v1 v2 : Vec3) : lerpVectors v1 v2 0 = v1 := by
  cases v1; cases v2
  simp only [lerpVectors, Vec3.mk.injEq]
  refine ⟨by ring, by ring, by ring⟩

theorem lerpVectors_one (v1 v2 : Vec3) : lerpVectors v1 v2 1 = v2 := by
  cases v1; cases v2
  simp only [lerpVectors, Vec3.mk.injEq]
  refine ⟨by ring, by ring, by ring⟩

theorem slerpQuaternions_zero (qa qb : Quat) : slerpQuaternions qa qb 0 = qa := by
  simp [slerpQuaternions]

theorem slerpQuaternions_one (qa qb : Quat) : slerpQuaternions qa qb 1 = qb := by
  simp [slerpQuaternions]

theorem slerpQuaternions_id_id (t : ℝ) :
    slerpQuaternions identityQuat identityQuat t = identityQuat := by
  by_cases h0 : t = 0
  · simp [slerpQuaternions, h0]
  · by_cases h1 : t = 1
    · simp [slerpQuaternions, h1]
    · simp only [slerpQuaternions, if_neg h0, if_neg h1, identityQuat]
      norm_num

/-- Unfolding of `getPose` on a rail with at least two points, phrased with
the spec-side clamp/segment/local quantities. -/
theorem getPose_unfold (pts : List ControlPoint) (t : ℝ) (h : 2 ≤ pts.length) :
    getPose pts t =
      some ⟨lerpVectors
              (pts.getD (specSegmentIndex pts.length t).toNat defaultPoint).position
              (pts.getD ((specSegmentIndex pts.length t).toNat + 1) defaultPoint).position
              (specLocalT pts.length t),
            slerpQuaternions
              (pts.getD (specSegmentIndex pts.length t).toNat defaultPoint).quaternion
              (pts.getD ((specSegmentIndex pts.length t).toNat + 1) defaultPoint).quaternion
              (specLocalT pts.length t)⟩ := by
  match pts with
  | [] => simp at h
  | [p] => simp at h
  | p :: q :: rest =>
    simp only [getPose, specLocalT, specSegmentIndex, specU, specSegments]
    rw [if_neg (by simp), if_neg (by simp)]

theorem specSegmentIndex_zero (count : ℕ) (h : 2 ≤ count) :
    specSegmentIndex count 0 = 0 := by
  unfold specSegmentIndex specU specSegments
  have h1 : max (0 : ℝ) (min 1 0) = 0 := by norm_num
  rw [h1, zero_mul, Int.floor_zero]
  refine min_eq_left ?_
  omega

theorem specLocalT_zero (count : ℕ) (h : 2 ≤ count) : specLocalT count 0 = 0 := by
  unfold specLocalT
  rw [specSegmentIndex_zero count h]
  unfold specU
  have h1 : max (0 : ℝ) (min 1 0) = 0 := by norm_num
  rw [h1, zero_mul]
  norm_num

theorem specSegmentIndex_one (count : ℕ) (h : 2 ≤ count) :
    specSegmentIndex count 1 = (count : ℤ) - 2 := by
  unfold specSegmentIndex specU specSegments
  have h1 : max (0 : ℝ) (min 1 1) = 1 := by norm_num
  rw [h1, one_mul, Int.floor_natCast]
  have h2 : ((count - 1 : ℕ) : ℤ) = (count : ℤ) - 1 := by omega
  rw [h2]
  have h3 : (count : ℤ) - 1 - 1 = (count : ℤ) - 2 := by ring
  rw [h3, min_eq_right (by omega)]

theorem specLocalT_one (count : ℕ) (h : 2 ≤ count) : specLocalT count 1 = 1 := by
  unfold specLocalT
  rw [specSegmentIndex_one count h]
  unfold specU specSegments
  have h1 : max (0 : ℝ) (min 1 1) = 1 := by norm_num
  rw [h1, one_mul]
  have h2 : ((count - 1 : ℕ) : ℝ) = (count : ℝ) - 1 := by
    have : 1 ≤ count := by omega
    push_cast [this]
    ring
  have h3 : (((count : ℤ) - 2 : ℤ) : ℝ) = (count : ℝ) - 2 := by push_cast; ring
  rw [h2, h3]
  ring

theorem getD_zero_eq_head (pts : List ControlPoint) (h : pts ≠ [])
    (d : ControlPoint) : pts.getD 0 d = pts.head h := by
  match pts with
  | p :: rest => rfl

theorem getD_pred_eq_getLast (pts : List ControlPoint) (h : pts ≠ [])
    (d : ControlPoint) : pts.getD (pts.length - 1) d = pts.getLast h := by
  rw [List.getLast_eq_getElem]
  exact List.getD_eq_getElem pts d
    (Nat.sub_lt (List.length_pos.mpr h) Nat.one_pos)

/-- C1: on every nonempty rail, `getPose 0` reproduces the first point's
pose and `getPose 1` the last point's pose — position exactly, orientation
up to quaternion sign (here in fact exactly, witnessed by the left disjunct
of `quatSignEq`). -/
theorem getPose_endpoints (pts : List ControlPoint) (h : pts ≠ []) :
    (∃ q0, getPose pts 0 = some ⟨(pts.head h).position, q0⟩ ∧
      quatSignEq q0 (pts.head h).quaternion) ∧
    (∃ q1, getPose pts 1 = some ⟨(pts.getLast h).position, q1⟩ ∧
      quatSignEq q1 (pts.getLast h).quaternion) := by
  by_cases hlen : 2 ≤ pts.length
  · constructor
    · refine ⟨(pts.head h).quaternion, ?_, Or.inl rfl⟩
      rw [getPose_unfold pts 0 hlen, specSegmentIndex_zero pts.length hlen,
        specLocalT_zero pts.length hlen]
      rw [Int.toNat_zero, getD_zero_eq_head pts h, lerpVectors_zero,
        slerpQuaternions_zero]
    · refine ⟨(pts.getLast h).quaternion, ?_, Or.inl rfl⟩
      rw [getPose_unfold pts 1 hlen, specSegmentIndex_one pts.length hlen,
        specLocalT_one pts.length hlen]
      have htn : ((pts.length : ℤ) - 2).toNat = pts.length - 2 := by omega
      have hidx : pts.length - 2 + 1 = pts.length - 1 := by omega
      rw [htn, hidx, getD_pred_eq_getLast pts h, lerpVectors_one,
        slerpQuaternions_one]
  · match pts, h with
    | [p], _ =>
      refine ⟨⟨p.quaternion, ?_, Or.inl rfl⟩, ⟨p.quaternion, ?_, Or.inl rfl⟩⟩ <;>
        simp [getPose, List.getD, List.getLast]
    | p :: q :: rest, _ => simp at hlen

theorem getPose_endpoints_witness :
    (∃ q0, getPose railTwo 0 = some ⟨⟨0, 0, 0⟩, q0⟩ ∧
      quatSignEq q0 identityQuat) ∧
    (∃ q1, getPose railTwo 1 = some ⟨⟨10, 0, 0⟩, q1⟩ ∧
      quatSignEq q1 identityQuat) :=
  getPose_endpoints railTwo (by simp [railTwo])

/-- C3: `getPose` returns the empty-marker `none` exactly on the empty rail,
and on a one-point rail returns that point's pose verbatim for every `t`. -/
theorem getPose_empty_single (pts : List ControlPoint) (t : ℝ) :
    (getPose pts t = none ↔ pts = []) ∧
    (∀ p, pts = [p] → getPose pts t = some ⟨p.position, p.quaternion⟩) := by
  constructor
  · constructor
    · intro hnone
      match pts with
      | [] => rfl
      | [p] => simp [getPose] at hnone
      | p :: q :: rest => simp [getPose] at hnone
    · rintro rfl
      rfl
  · rintro p rfl
    simp [getPose, List.getD]

theorem getPose_empty_single_witness :
    getPose [] (1 / 2) = none ∧
    getPose [cpA] 0 = some ⟨cpA.position, cpA.quaternion⟩ ∧
    getPose [cpA] (1 / 2) = some ⟨cpA.position, cpA.quaternion⟩ ∧
    getPose [cpA] 1 = some ⟨cpA.position, cpA.quaternion⟩ :=
  ⟨(getPose_empty_single [] (1 / 2)).1.mpr rfl,
   (getPose_empty_single [cpA] 0).2 cpA rfl,
   (getPose_empty_single [cpA] (1 / 2)).2 cpA rfl,
   (getPose_empty_single [cpA] 1).2 cpA rfl⟩

/-- C2: for every rail with at least two points and every real `t`,
`getPose` clamps `t` to `[0,1]`, scales by `S = count − 1`, picks
`segment = min(⌊u⌋, S − 1)` and `local = u − segment`, and returns the linear
interpolation of the segment endpoints' positions together with the
shortest-path spherical interpolation of their orientations at `local`. -/
theorem getPose_interpolation (pts : List ControlPoint) (t : ℝ)
    (h : 2 ≤ pts.length) :
    getPose pts t =
      some ⟨lerpVectors
              (pts.getD (specSegmentIndex pts.length t).toNat defaultPoint).position
              (pts.getD ((specSegmentIndex pts.length t).toNat + 1) defaultPoint).position
              (specLocalT pts.length t),
            slerpQuaternions
              (pts.getD (specSegmentIndex pts.length t).toNat defaultPoint).quaternion
              (pts.getD ((specSegmentIndex pts.length t).toNat + 1) defaultPoint).quaternion
              (specLocalT pts.length t)⟩ :=
  getPose_unfold pts t h

theorem getPose_interpolation_witness :
    getPose railTwo (1 / 2) = some ⟨⟨5, 0, 0⟩, identityQuat⟩ ∧
    getPose railThree (1 / 4) = some ⟨⟨1 / 2, 0, 0⟩, identityQuat⟩ := by
  have hfloor : (⌊(1 / 2 : ℝ)⌋ : ℤ) = 0 := by
    rw [Int.floor_eq_zero_iff]
    constructor <;> norm_num
  constructor
  · rw [getPose_interpolation railTwo (1 / 2) (by simp [railTwo])]
    have hseg : specSegmentIndex railTwo.length (1 / 2) = 0 := by
      unfold specSegmentIndex specU specSegments
      have h1 : max (0 : ℝ) (min 1 (1 / 2)) = 1 / 2 := by norm_num
      simp only [railTwo, List.length_cons, List.length_nil, h1]
      norm_num [hfloor]
    have hloc : specLocalT railTwo.length (1 / 2) = 1 / 2 := by
      unfold specLocalT
      rw [hseg]
      unfold specU specSegments
      have h1 : max (0 : ℝ) (min 1 (1 / 2)) = 1 / 2 := by norm_num
      simp only [railTwo, List.length_cons, List.length_nil, h1]
      norm_num
    rw [hseg, hloc, Int.toNat_zero]
    rw [show railTwo.getD 0 defaultPoint = ⟨"p0", ⟨0, 0, 0⟩, identityQuat⟩ from rfl]
    rw [show railTwo.getD 1 defaultPoint = ⟨"p1", ⟨10, 0, 0⟩, identityQuat⟩ from rfl]
    rw [slerpQuaternions_id_id]
    simp only [lerpVectors]
    norm_num
  · rw [getPose_interpolation railThree (1 / 4) (by simp [railThree])]
    have hseg : specSegmentIndex railThree.length (1 / 4) = 0 := by
      unfold specSegmentIndex specU specSegments
      have h1 : max (0 : ℝ) (min 1 (1 / 4)) = 1 / 4 := by norm_num
      simp only [railThree, List.length_cons, List.length_nil, h1]
      norm_num [hfloor]
    have hloc : specLocalT railThree.length (1 / 4) = 1 / 2 := by
      unfold specLocalT
      rw [hseg]
      unfold specU specSegments
      have h1 : max (0 : ℝ) (min 1 (1 / 4)) = 1 / 4 := by norm_num
      simp only [railThree, List.length_cons, List.length_nil, h1]
      norm_num
    rw [hseg, hloc, Int.toNat_zero]
    rw [show railThree.getD 0 defaultPoint = ⟨"q0", ⟨0, 0, 0⟩, identityQuat⟩ from rfl]
    rw [show railThree.getD 1 defaultPoint = ⟨"q1", ⟨1, 0, 0⟩, identityQuat⟩ from rfl]
    rw [slerpQuaternions_id_id]
    simp only [lerpVectors]
    norm_num

/-! ### Claim theorems: drag effects -/

theorem updatePoint_length (controlPoints : List ControlPoint) (id : String)
    (position : Option Vec3) (quaternion : Option Quat) :
    (updatePoint controlPoints id position quaternion).length =
      controlPoints.length := by
  induction controlPoints with
  | nil => rfl
  | cons p rest ih =>
    by_cases hp : (p.id == id) = true
    · simp [updatePoint, hp]
    · simp [updatePoint, hp, ih]

theorem updatePoint_id_map (controlPoints : List ControlPoint) (id : String)
    (position : Option Vec3) (quaternion : Option Quat) :
    (updatePoint controlPoints id position quaternion).map ControlPoint.id =
      controlPoints.map ControlPoint.id := by
  induction controlPoints with
  | nil => rfl
  | cons p rest ih =>
    by_cases hp : (p.id == id) = true
    · simp [updatePoint, hp]
    · simp [updatePoint, hp, ih]

theorem updatePoint_quaternion_map (controlPoints : List ControlPoint)
    (id : String) (position : Option Vec3) :
    (updatePoint controlPoints id position none).map ControlPoint.quaternion =
      controlPoints.map ControlPoint.quaternion := by
  induction controlPoints with
  | nil => rfl
  | cons p rest ih =>
    by_cases hp : (p.id == id) = true
    · simp [updatePoint, hp, Option.getD]
    · simp [updatePoint, hp, ih]

theorem updatePoint_position_map (controlPoints : List ControlPoint)
    (id : String) (quaternion : Option Quat) :
    (updatePoint controlPoints id none quaternion).map ControlPoint.position =
      controlPoints.map ControlPoint.position := by
  induction controlPoints with
  | nil => rfl
  | cons p rest ih =>
    by_cases hp : (p.id == id) = true
    · simp [updatePoint, hp, Option.getD]
    · simp [updatePoint, hp, ih]

theorem updatePoint_getD_ne (controlPoints : List ControlPoint) (id : String)
    (position : Option Vec3) (quaternion : Option Quat) (i : ℕ)
    (hne : (controlPoints.getD i defaultPoint).id ≠ id) :
    (updatePoint controlPoints id position quaternion).getD i defaultPoint =
      controlPoints.getD i defaultPoint := by
  induction controlPoints generalizing i with
  | nil => rfl
  | cons p rest ih =>
    by_cases hp : (p.id == id) = true
    · cases i with
      | zero =>
        exact absurd (by simpa using hp) (by simpa [List.getD] using hne)
      | succ n => simp [updatePoint, hp, List.getD]
    · cases i with
      | zero => simp [updatePoint, hp, List.getD]
      | succ n =>
        simpa [updatePoint, hp, List.getD] using
          ih n (by simpa [List.getD] using hne)

/-- C8: a pointer-move during a body (sphere) drag changes at most the
selected point's position — every id, every orientation, and every other
point are untouched — while a pointer-move during a direction-indicator
(cone) drag changes at most the selected point's orientation, leaving every
id, every position, and every other point untouched; in both cases length
and order are preserved. -/
theorem drag_effects_disjoint :
    (∀ (s : EditorState) (mouse : Vec2) (intersection : Option Vec3)
      (selId : String), s.mode = EditorMode.select →
      s.selectedPointId = some selId → s.isDraggingPosition = true →
      (handlePointerMove s mouse intersection).rail.length = s.rail.length ∧
      (handlePointerMove s mouse intersection).rail.map ControlPoint.id =
        s.rail.map ControlPoint.id ∧
      (handlePointerMove s mouse intersection).rail.map ControlPoint.quaternion =
        s.rail.map ControlPoint.quaternion ∧
      (∀ i, (s.rail.getD i defaultPoint).id ≠ selId →
        (handlePointerMove s mouse intersection).rail.getD i defaultPoint =
          s.rail.getD i defaultPoint)) ∧
    (∀ (s : EditorState) (mouse : Vec2) (intersection : Option Vec3)
      (selId : String), s.mode = EditorMode.select →
      s.selectedPointId = some selId → s.isDraggingPosition = false →
      s.isDraggingRotation = true →
      (handlePointerMove s mouse intersection).rail.length = s.rail.length ∧
      (handlePointerMove s mouse intersection).rail.map ControlPoint.id =
        s.rail.map ControlPoint.id ∧
      (handlePointerMove s mouse intersection).rail.map ControlPoint.position =
        s.rail.map ControlPoint.position ∧
      (∀ i, (s.rail.getD i defaultPoint).id ≠ selId →
        (handlePointerMove s mouse intersection).rail.getD i defaultPoint =
          s.rail.getD i defaultPoint)) := by
  constructor
  · intro s mouse intersection selId hmode hsel hpos
    have hrail : (handlePointerMove s mouse intersection).rail =
        updatePoint s.rail selId (intersection.getD ⟨0, 0, 0⟩) none ∨
        (handlePointerMove s mouse intersection).rail = s.rail := by
      unfold handlePointerMove
      rw [hsel]
      simp only [hmode, ne_eq, not_true_eq_false, if_false, hpos, if_true]
      cases intersection with
      | some point => exact Or.inl rfl
      | none => exact Or.inr rfl
    rcases hrail with hrail | hrail <;> rw [hrail]
    · exact ⟨updatePoint_length .., updatePoint_id_map ..,
        updatePoint_quaternion_map .., fun i hi => updatePoint_getD_ne _ _ _ _ i hi⟩
    · exact ⟨rfl, rfl, rfl, fun i _ => rfl⟩
  · intro s mouse intersection selId hmode hsel hpos hrot
    have hrail : (∃ quaternion,
        (handlePointerMove s mouse intersection).rail =
          updatePoint s.rail selId none (some quaternion)) ∨
        (handlePointerMove s mouse intersection).rail = s.rail := by
      unfold handlePointerMove
      rw [hsel]
      simp only [hmode, ne_eq, not_true_eq_false, if_false, hpos,
        Bool.false_eq_true, hrot, if_true]
      cases hgp : getPoint s.rail selId with
      | none => exact Or.inr rfl
      | some controlPoint => exact Or.inl ⟨_, rfl⟩
    rcases hrail with ⟨quaternion, hrail⟩ | hrail <;> rw [hrail]
    · exact ⟨updatePoint_length .., updatePoint_id_map ..,
        updatePoint_position_map .., fun i hi => updatePoint_getD_ne _ _ _ _ i hi⟩
    · exact ⟨rfl, rfl, rfl, fun i _ => rfl⟩

theorem drag_effects_disjoint_witness :
    (handlePointerMove posDragState ⟨1, 1⟩ (some ⟨9, 9, 9⟩)).rail.map
        ControlPoint.quaternion = railABC.map ControlPoint.quaternion ∧
    (handlePointerMove posDragState ⟨1, 1⟩
        (some ⟨9, 9, 9⟩)).rail.getD 0 defaultPoint = cpA ∧
    (handlePointerMove rotDragState ⟨1, 1⟩ none).rail.map
        ControlPoint.position = railABC.map ControlPoint.position ∧
    (handlePointerMove rotDragState ⟨1, 1⟩ none).rail.getD 2 defaultPoint = cpC := by
  have h1 := drag_effects_disjoint.1 posDragState ⟨1, 1⟩ (some ⟨9, 9, 9⟩) "b"
    rfl rfl rfl
  have h2 := drag_effects_disjoint.2 rotDragState ⟨1, 1⟩ none "b" rfl rfl rfl rfl
  refine ⟨h1.2.2.1, ?_, h2.2.2.1, ?_⟩
  · rw [h1.2.2.2 0 (by decide)]
    rfl
  · rw [h2.2.2.2 2 (by decide)]
    rfl

/-! ### Claim theorems: rotation drag -/

/-- Right-multiplying a unit quaternion by a rotation about the x axis is
the same as left-multiplying by the rotation (through the same angle) about
the quaternion's rotated x axis: the pitch factor acts about the point's
local right axis. -/
theorem pitch_is_local_right_rotation (q : Quat) (θ : ℝ) (hq : unitQuat q) :
    quatMul q (setFromAxisAngle ⟨1, 0, 0⟩ θ) =
      quatMul (setFromAxisAngle (rotateVec q ⟨1, 0, 0⟩) θ) q := by
  obtain ⟨x, y, z, w⟩ := q
  unfold unitQuat at hq
  simp only at hq
  simp only [quatMul, setFromAxisAngle, rotateVec, quatConj, Quat.mk.injEq]
  refine ⟨?_, ?_, ?_, ?_⟩
  · linear_combination (-(Real.sin (θ / 2)) * w) * hq
  · linear_combination (-(Real.sin (θ / 2)) * z) * hq
  · linear_combination (Real.sin (θ / 2) * y) * hq
  · linear_combination (Real.sin (θ / 2) * x) * hq

/-- C7: during a rotation drag, each pointer-move stores
`yaw ∘ current ∘ pitch`, where yaw is the rotation about the world-up axis
through the horizontal delta scaled by the fixed sensitivity 2 and pitch is
the rotation about the x axis through the scaled vertical delta; composing
pitch on the right is exactly a rotation about the point's current local
right axis (world-space conjugate), and the pointer sample is stored for
the next delta. -/
theorem rotation_drag_formula (s : EditorState) (mouse : Vec2)
    (intersection : Option Vec3) (selId : String) (cp : ControlPoint)
    (hmode : s.mode = EditorMode.select) (hsel : s.selectedPointId = some selId)
    (hpos : s.isDraggingPosition = false) (hrot : s.isDraggingRotation = true)
    (hfound : getPoint s.rail selId = some cp) (hunit : unitQuat cp.quaternion) :
    (handlePointerMove s mouse intersection).rail =
      updatePoint s.rail selId none
        (some (quatMul
          (quatMul (setFromAxisAngle ⟨0, 1, 0⟩ ((mouse.x - s.lastMouse.x) * 2))
            cp.quaternion)
          (setFromAxisAngle ⟨1, 0, 0⟩ ((mouse.y - s.lastMouse.y) * 2)))) ∧
    quatMul cp.quaternion
        (setFromAxisAngle ⟨1, 0, 0⟩ ((mouse.y - s.lastMouse.y) * 2)) =
      quatMul
        (setFromAxisAngle (rotateVec cp.quaternion ⟨1, 0, 0⟩)
          ((mouse.y - s.lastMouse.y) * 2))
        cp.quaternion ∧
    (handlePointerMove s mouse intersection).lastMouse = mouse := by
  refine ⟨?_, pitch_is_local_right_rotation cp.quaternion
    ((mouse.y - s.lastMouse.y) * 2) hunit, ?_⟩
  · unfold handlePointerMove
    rw [hsel]
    simp only [hmode, ne_eq, not_true_eq_false, if_false, hpos,
      Bool.false_eq_true, hrot, if_true]
    rw [show ({ s with lastMouse := mouse } : EditorState).rail = s.rail from rfl,
      hfound]
  · unfold handlePointerMove
    rw [hsel]
    simp only [hmode, ne_eq, not_true_eq_false, if_false, hpos,
      Bool.false_eq_true, hrot, if_true]
    rw [show ({ s with lastMouse := mouse } : EditorState).rail = s.rail from rfl,
      hfound]

theorem rotation_drag_formula_witness :
    unitQuat cpB.quaternion ∧
    (handlePointerMove rotDragState ⟨1, 1⟩ none).rail =
      updatePoint railABC "b" none
        (some (quatMul
          (quatMul (setFromAxisAngle ⟨0, 1, 0⟩ (((1 : ℝ) - 0) * 2))
            cpB.quaternion)
          (setFromAxisAngle ⟨1, 0, 0⟩ (((1 : ℝ) - 0) * 2)))) ∧
    (handlePointerMove rotDragState ⟨1, 1⟩ none).lastMouse = ⟨1, 1⟩ := by
  have hu : unitQuat cpB.quaternion := by norm_num [unitQuat, cpB, identityQuat]
  have h := rotation_drag_formula rotDragState ⟨1, 1⟩ none "b" cpB rfl rfl rfl
    rfl rfl hu
  exact ⟨hu, h.1, h.2.2⟩

/-! ### Claim theorems: drag exclusivity and free-look interlock -/

/-- C9 counterexample: two primary-button pointer-downs without an
intervening pointer-up (as multi-touch delivers) drive the machine into a
state where both drag flags are set, so over arbitrary pointer-event
sequences the two drag states are not mutually exclusive. -/
theorem drag_exclusivity_counterexample :
    (step (step idleState downOnSphere) downOnCone).isDraggingPosition = true ∧
    (step (step idleState downOnSphere) downOnCone).isDraggingRotation = true :=
  ⟨rfl, rfl⟩

theorem handlePointerDown_flag_cases (s : EditorState) (button : ℕ)
    (mouse : Vec2) (hit : Option HitResult) (intersection : Option Vec3)
    (q : Quat) (now : ℕ) :
    (((handlePointerDown s button mouse hit intersection q now).isDraggingPosition =
        s.isDraggingPosition ∧
      (handlePointerDown s button mouse hit intersection q now).isDraggingRotation =
        s.isDraggingRotation ∧
      (handlePointerDown s button mouse hit intersection q now).controlsEnabled =
        s.controlsEnabled) ∨
    ((handlePointerDown s button mouse hit intersection q now).isDraggingPosition =
        true ∧
      (handlePointerDown s button mouse hit intersection q now).isDraggingRotation =
        s.isDraggingRotation ∧
      (handlePointerDown s button mouse hit intersection q now).controlsEnabled =
        false) ∨
    ((handlePointerDown s button mouse hit intersection q now).isDraggingPosition =
        s.isDraggingPosition ∧
      (handlePointerDown s button mouse hit intersection q now).isDraggingRotation =
        true ∧
      (handlePointerDown s button mouse hit intersection q now).controlsEnabled =
        false)) := by
  unfold handlePointerDown
  by_cases hb : button ≠ 0
  · simp [hb]
  · simp only [hb, if_false]
    rcases hmode : s.mode with _ | _
    · cases hit with
      | none => exact Or.inl ⟨rfl, rfl, rfl⟩
      | some hitResult =>
        by_cases hc : hitResult.hitCone = true
        · exact Or.inr (Or.inr (by simp [hc]))
        · rw [Bool.not_eq_true] at hc
          exact Or.inr (Or.inl (by simp [hc]))
    · cases intersection with
      | none => exact Or.inl ⟨rfl, rfl, rfl⟩
      | some point => exact Or.inl ⟨rfl, rfl, rfl⟩

theorem handlePointerMove_flags (s : EditorState) (mouse : Vec2)
    (intersection : Option Vec3) :
    (handlePointerMove s mouse intersection).isDraggingPosition =
      s.isDraggingPosition ∧
    (handlePointerMove s mouse intersection).isDraggingRotation =
      s.isDraggingRotation ∧
    (handlePointerMove s mouse intersection).controlsEnabled =
      s.controlsEnabled := by
  unfold handlePointerMove
  rcases hsel : s.selectedPointId with _ | selId
  · exact ⟨rfl, rfl, rfl⟩
  · by_cases hmode : s.mode ≠ EditorMode.select
    · simp [hmode]
    · simp only [hmode, if_false]
      by_cases hpos : s.isDraggingPosition = true
      · cases intersection <;> simp [hpos]
      · by_cases hrot : s.isDraggingRotation = true
        · simp only [hpos, Bool.false_eq_true, if_false, hrot, if_true]
          cases hgp : getPoint s.rail selId <;> simp [hpos, hrot]
        · simp [hpos, hrot]

theorem deleteControlPoint_flags (s : EditorState) (id : String) :
    (deleteControlPoint s id).isDraggingPosition = s.isDraggingPosition ∧
    (deleteControlPoint s id).isDraggingRotation = s.isDraggingRotation ∧
    (deleteControlPoint s id).controlsEnabled = s.controlsEnabled := by
  by_cases h : s.selectedPointId = some id
  · simp [deleteControlPoint, h]
  · simp [deleteControlPoint, h]

/-- C9 amended: provided a pointer-down is only delivered while no drag is
active (single-pointer streams), every event preserves the mutual exclusion
of the two drag states; any event that starts a drag disables free-look
control; and pointer-up or pointer-leave during a drag clears both drag
states and re-enables free-look unconditionally, whatever the rail
contains. -/
theorem drag_exclusivity_amended :
    (∀ (s : EditorState) (e : Event),
      (∀ button mouse hit intersection q now,
        e = Event.pointerDown button mouse hit intersection q now →
        ¬Dragging s) →
      DragExclusive s → DragExclusive (step s e)) ∧
    (∀ (s : EditorState) (e : Event), ¬Dragging s → Dragging (step s e) →
      (step s e).controlsEnabled = false) ∧
    (∀ s : EditorState, Dragging s →
      (step s Event.pointerUp).isDraggingPosition = false ∧
      (step s Event.pointerUp).isDraggingRotation = false ∧
      (step s Event.pointerUp).controlsEnabled = true ∧
      (step s Event.pointerLeave).isDraggingPosition = false ∧
      (step s Event.pointerLeave).isDraggingRotation = false ∧
      (step s Event.pointerLeave).controlsEnabled = true) := by
  refine ⟨?_, ?_, ?_⟩
  · intro s e hdown hexc
    cases e with
    | pointerDown button mouse hit intersection q now =>
      have hnd := hdown button mouse hit intersection q now rfl
      rw [Dragging, not_or, Bool.not_eq_true, Bool.not_eq_true] at hnd
      rcases handlePointerDown_flag_cases s button mouse hit intersection q now
        with ⟨h1, h2, _⟩ | ⟨h1, h2, _⟩ | ⟨h1, h2, _⟩ <;>
        rw [DragExclusive, step, h1, h2] <;>
        simp [hnd.1, hnd.2]
    | pointerMove mouse intersection =>
      obtain ⟨h1, h2, _⟩ := handlePointerMove_flags s mouse intersection
      rw [DragExclusive, step, h1, h2]
      exact hexc
    | pointerUp =>
      obtain ⟨h1, h2, _⟩ := handlePointerUp_clears s
      rw [DragExclusive, step, h1, h2]
      simp
    | pointerLeave =>
      obtain ⟨h1, h2, _⟩ := handlePointerUp_clears s
      rw [DragExclusive, step, h1, h2]
      simp
    | deletePoint id =>
      obtain ⟨h1, h2, _⟩ := deleteControlPoint_flags s id
      rw [DragExclusive, step, h1, h2]
      exact hexc
  · intro s e hnd hd
    rw [Dragging, not_or, Bool.not_eq_true, Bool.not_eq_true] at hnd
    cases e with
    | pointerDown button mouse hit intersection q now =>
      rcases handlePointerDown_flag_cases s button mouse hit intersection q now
        with ⟨h1, h2, h3⟩ | ⟨h1, h2, h3⟩ | ⟨h1, h2, h3⟩
      · rw [Dragging, step, h1, h2, hnd.1, hnd.2] at hd
        simp at hd
      · exact h3
      · exact h3
    | pointerMove mouse intersection =>
      obtain ⟨h1, h2, _⟩ := handlePointerMove_flags s mouse intersection
      rw [Dragging, step, h1, h2, hnd.1, hnd.2] at hd
      simp at hd
    | pointerUp =>
      obtain ⟨h1, h2, _⟩ := handlePointerUp_clears s
      rw [Dragging, step, h1, h2] at hd
      simp at hd
    | pointerLeave =>
      obtain ⟨h1, h2, _⟩ := handlePointerUp_clears s
      rw [Dragging, step, h1, h2] at hd
      simp at hd
    | deletePoint id =>
      obtain ⟨h1, h2, _⟩ := deleteControlPoint_flags s id
      rw [Dragging, step, h1, h2, hnd.1, hnd.2] at hd
      simp at hd
  · intro s hd
    obtain ⟨h1, h2, h3⟩ := handlePointerUp_clears s
    have hc : (handlePointerUp s).controlsEnabled = true := h3 hd
    exact ⟨h1, h2, hc, h1, h2, hc⟩

theorem drag_exclusivity_amended_witness :
    DragExclusive idleState ∧
    DragExclusive (step idleState downOnSphere) ∧
    (step posDragState Event.pointerUp).isDraggingPosition = false ∧
    (step posDragState Event.pointerUp).isDraggingRotation = false ∧
    (step posDragState Event.pointerUp).controlsEnabled = true := by
  have hexc : DragExclusive idleState := by
    rw [DragExclusive]
    simp [idleState]
  have h1 := drag_exclusivity_amended.1 idleState downOnSphere
    (fun _ _ _ _ _ _ _ => by rw [Dragging]; simp [idleState]) hexc
  have h3 := drag_exclusivity_amended.2.2 posDragState (Or.inl rfl)
  exact ⟨hexc, h1, h3.1, h3.2.1, h3.2.2.1⟩

end

end Railbird
